import Mathlib

set_option maxRecDepth 10000

/-!
Verification of the Lumina astrology engine
(`backend/services/astrology_engine.py`).

The engine is embedded shallowly: Python floats become rationals (`ℚ`),
Python dicts (which preserve insertion order) become association lists,
the external Swiss-Ephemeris position provider becomes an abstract
`Provider` structure whose lookups return `Option` (`none` models a
raised provider exception), and functions that can raise return
`Except String _`.
-/

namespace Lumina

/-- Python `int(x)` truncation of a real toward zero: `int(2.7) = 2`,
`int (-2.7) = -2`. -/
def pyTrunc (x : ℚ) : ℤ :=
  if 0 ≤ x then ⌊x⌋ else ⌈x⌉

/-- Python `round(x)` to an integer: round-half-to-even (banker's rounding). -/
def pyRoundInt (x : ℚ) : ℤ :=
  if x - ⌊x⌋ < 1/2 then ⌊x⌋
  else if 1/2 < x - ⌊x⌋ then ⌊x⌋ + 1
  else if ⌊x⌋ % 2 = 0 then ⌊x⌋ else ⌊x⌋ + 1

/-- Python `round(x, 2)`: round to 2 decimal places, half to even. -/
def round2 (x : ℚ) : ℚ := (pyRoundInt (x * 100) : ℚ) / 100

/-- Python `x % m` on reals: `x - m * floor (x / m)`, in `[0, m)` for `m > 0`. -/
def pyMod (x m : ℚ) : ℚ := x - m * ⌊x / m⌋

theorem pyRoundInt_le (x : ℚ) : (pyRoundInt x : ℚ) ≤ x + 1/2 := by
  unfold pyRoundInt
  have hfl := Int.floor_le x
  have hlt := Int.lt_floor_add_one x
  split_ifs <;> push_cast <;> linarith

theorem le_pyRoundInt (x : ℚ) : x - 1/2 ≤ (pyRoundInt x : ℚ) := by
  unfold pyRoundInt
  have hfl := Int.floor_le x
  have hlt := Int.lt_floor_add_one x
  split_ifs <;> push_cast <;> linarith

theorem pyRoundInt_nonneg (x : ℚ) (hx : 0 ≤ x) : 0 ≤ pyRoundInt x := by
  have h0 : (0 : ℤ) ≤ ⌊x⌋ := Int.floor_nonneg.2 hx
  unfold pyRoundInt
  split_ifs <;> omega

theorem round2_nonneg (x : ℚ) (hx : 0 ≤ x) : 0 ≤ round2 x := by
  unfold round2
  have h := pyRoundInt_nonneg (x * 100) (by positivity)
  have : (0 : ℚ) ≤ (pyRoundInt (x * 100) : ℚ) := by exact_mod_cast h
  linarith

/-- If `x < b` and `100 * b` is an integer bound, then `round2 x ≤ b`. -/
theorem round2_le_of_lt (x : ℚ) (b : ℤ) (hx : x < b) : round2 x ≤ b := by
  unfold round2
  have h := pyRoundInt_le (x * 100)
  have hint : pyRoundInt (x * 100) ≤ 100 * b := by
    have : (pyRoundInt (x * 100) : ℚ) < 100 * b + 1 := by linarith
    exact_mod_cast Int.lt_add_one_iff.mp (by exact_mod_cast this)
  have : (pyRoundInt (x * 100) : ℚ) ≤ 100 * b := by exact_mod_cast hint
  linarith

theorem pyMod_nonneg (x m : ℚ) (hm : 0 < m) : 0 ≤ pyMod x m := by
  unfold pyMod
  have h := Int.floor_le (x / m)
  have : m * ⌊x / m⌋ ≤ m * (x / m) := by
    exact mul_le_mul_of_nonneg_left h (le_of_lt hm)
  have hxm : m * (x / m) = x := by field_simp
  linarith [hxm ▸ this]

theorem pyMod_lt (x m : ℚ) (hm : 0 < m) : pyMod x m < m := by
  unfold pyMod
  have h := Int.lt_floor_add_one (x / m)
  have : m * (x / m) < m * (⌊x / m⌋ + 1) := by
    exact mul_lt_mul_of_pos_left h hm
  have hxm : m * (x / m) = x := by field_simp
  nlinarith [hxm ▸ this]

-- ── Constants (astrology_engine.py lines 18-44) ──

def ZODIAC_SIGNS : List String :=
  ["Aries", "Taurus", "Gemini", "Cancer", "Leo", "Virgo",
   "Libra", "Scorpio", "Sagittarius", "Capricorn", "Aquarius", "Pisces"]

/-- `PLANET_IDS`: tracked bodies with their Swiss-Ephemeris ids, in the
source's dict insertion order (`swe.SUN = 0` … `swe.PLUTO = 9`,
`swe.TRUE_NODE = 11`). -/
def PLANET_IDS : List (String × Nat) :=
  [("Sun", 0), ("Moon", 1), ("Mercury", 2), ("Venus", 3), ("Mars", 4),
   ("Jupiter", 5), ("Saturn", 6), ("Uranus", 7), ("Neptune", 8),
   ("Pluto", 9), ("North Node", 11)]

structure AspectDef where
  type : String
  angle : ℚ
  orb : ℚ
deriving DecidableEq, Repr

def ASPECT_DEFINITIONS : List AspectDef :=
  [⟨"conjunction", 0, 8⟩, ⟨"opposition", 180, 8⟩, ⟨"trine", 120, 8⟩,
   ⟨"square", 90, 7⟩, ⟨"sextile", 60, 6⟩]

def MOON_PHASES : List String :=
  ["New Moon", "Waxing Crescent", "First Quarter", "Waxing Gibbous",
   "Full Moon", "Waning Gibbous", "Last Quarter", "Waning Crescent"]

def TRANSIT_ORB : ℚ := 3

-- ── ZodiacMapper (get_zodiac_sign, line 50-52) ──

/-- `get_zodiac_sign(longitude)`: `ZODIAC_SIGNS[int(longitude / 30) % 12]`.
Python `int()` truncates toward zero and `% 12` is the nonnegative
Euclidean remainder. -/
def get_zodiac_sign (longitude : ℚ) : String :=
  ZODIAC_SIGNS.getD ((pyTrunc (longitude / 30)).emod 12).toNat "Aries"

-- ── Data model (wire shapes returned by the engine) ──

structure Placement where
  sign : String
  degree : ℚ
  absolute_degree : ℚ
  house : Nat
  retrograde : Bool
deriving DecidableEq, Repr

structure HouseCusp where
  house : Nat
  sign : String
  degree : ℚ
  absolute_degree : ℚ
deriving DecidableEq, Repr

structure ZodiacPos where
  sign : String
  degree : ℚ
deriving DecidableEq, Repr

structure Aspect where
  planet1 : String
  planet2 : String
  type : String
  angle : ℚ
  orb : ℚ
deriving DecidableEq, Repr

structure Chart where
  planets : List (String × Placement)
  ascendant : ZodiacPos
  midheaven : ZodiacPos
  houses : List HouseCusp
  aspects : List Aspect
deriving DecidableEq, Repr

structure TransitEntry where
  planet : String
  type : String
  natal_planet : String
  orb : ℚ
deriving DecidableEq, Repr

/-- Transit snapshot (the source's `date` timestamp string, taken from the
wall clock, is not modelled). -/
structure TransitSnapshot where
  moon_sign : String
  moon_phase : String
  active_transits : List TransitEntry
deriving DecidableEq, Repr

/-- The external Swiss-Ephemeris position provider. `none` models a raised
provider exception. `calcUT jd pid = some (longitude, speed)` models
`swe.calc_ut`; `houses jd lat lon = some (cusps, ascendant, midheaven)`
models `swe.houses` (Placidus); `julday` models `swe.julday`. -/
structure Provider where
  calcUT : ℚ → Nat → Option (ℚ × ℚ)
  houses : ℚ → ℚ → ℚ → Option ((Fin 12 → ℚ) × ℚ × ℚ)
  julday : ℤ → ℤ → ℤ → ℚ → ℚ

-- ── _calculate_planet_position (lines 55-66) ──

/-- Placement built from a successful provider result `(longitude, speed)`. -/
def placementOf (r : ℚ × ℚ) : Placement :=
  { sign := get_zodiac_sign r.1
    degree := round2 (pyMod r.1 30)
    absolute_degree := round2 r.1
    house := 1
    retrograde := decide (r.2 < 0) }

/-- `_calculate_planet_position(jd, planet_id)`: propagates a provider
failure to the caller (the `try` in `calculate_birth_chart` catches it). -/
def _calculate_planet_position (p : Provider) (jd : ℚ) (pid : Nat) :
    Option Placement :=
  (p.calcUT jd pid).map placementOf

/-- The degraded default substituted when a single body's lookup fails
(lines 147-150). -/
def degradedPlacement : Placement :=
  { sign := "Aries", degree := 0, absolute_degree := 0, house := 1,
    retrograde := false }

/-- Per-body loop of `calculate_birth_chart` (lines 140-150): builds the
`planets` dict and the `planet_longitudes` dict in insertion order; a
failed body gets `degradedPlacement` and is left out of the longitude
map. -/
def buildPlanets (p : Provider) (jd : ℚ) :
    List (String × Nat) → List (String × Placement) × List (String × ℚ)
  | [] => ([], [])
  | (nm, pid) :: rest =>
    match _calculate_planet_position p jd pid with
    | some pos =>
      ((nm, pos) :: (buildPlanets p jd rest).1,
       (nm, pos.absolute_degree) :: (buildPlanets p jd rest).2)
    | none =>
      ((nm, degradedPlacement) :: (buildPlanets p jd rest).1,
       (buildPlanets p jd rest).2)

/-- South Node derivation (lines 152-162): only when "North Node" is a key
of `planet_longitudes`. -/
def addSouthNode (planets : List (String × Placement))
    (longs : List (String × ℚ)) :
    List (String × Placement) × List (String × ℚ) :=
  match longs.lookup "North Node" with
  | some nn =>
    let sn := pyMod (nn + 180) 360
    (planets ++ [("South Node",
      { sign := get_zodiac_sign sn, degree := round2 (pyMod sn 30),
        absolute_degree := round2 sn, house := 1, retrograde := false })],
     longs ++ [("South Node", sn)])
  | none => (planets, longs)

-- ── _assign_house (lines 69-80) ──

/-- Membership test for house `i` (loop body, lines 72-79); `i + 1` in
`Fin 12` is the source's `(i + 1) % 12`. -/
def houseMatch (longitude : ℚ) (cusps : Fin 12 → ℚ) (i : Fin 12) : Bool :=
  if cusps i < cusps (i + 1) then
    decide (cusps i ≤ longitude ∧ longitude < cusps (i + 1))
  else
    decide (cusps i ≤ longitude ∨ longitude < cusps (i + 1))

/-- `_assign_house(longitude, cusps)`: first index `i` in 0..11 whose house
interval contains the longitude, else house 1. -/
def _assign_house (longitude : ℚ) (cusps : Fin 12 → ℚ) : Nat :=
  match (List.finRange 12).find? (houseMatch longitude cusps) with
  | some i => i.val + 1
  | none => 1

-- ── _calculate_aspects (lines 83-107) ──

/-- Circular separation (lines 92-94): `|lon1 - lon2|`, replaced by
`360 - |lon1 - lon2|` when above 180. -/
def reducedAngle (lon1 lon2 : ℚ) : ℚ :=
  if 180 < |lon1 - lon2| then 360 - |lon1 - lon2| else |lon1 - lon2|

/-- Aspects contributed by one pair (inner loop over the catalog,
lines 96-105). -/
def aspectsForPair (n1 n2 : String) (lon1 lon2 : ℚ) : List Aspect :=
  (ASPECT_DEFINITIONS.filter
      fun d => |reducedAngle lon1 lon2 - d.angle| ≤ d.orb).map
    fun d =>
      { planet1 := n1, planet2 := n2, type := d.type,
        angle := round2 (reducedAngle lon1 lon2),
        orb := round2 |reducedAngle lon1 lon2 - d.angle| }

/-- Ordered pairs `(i, j)`, `i < j`, in the double-loop order of
lines 88-89. -/
def pairsOf {α : Type} : List α → List (α × α)
  | [] => []
  | x :: xs => xs.map (fun y => (x, y)) ++ pairsOf xs

def _calculate_aspects (longs : List (String × ℚ)) : List Aspect :=
  (pairsOf longs).flatMap fun pq => aspectsForPair pq.1.1 pq.2.1 pq.1.2 pq.2.2

-- ── Houses phase of calculate_birth_chart (lines 164-194) ──

/-- `houses_data` entry for cusp `c` at 0-based index `i` (lines 174-180). -/
def houseCuspEntry (i : Nat) (c : ℚ) : HouseCusp :=
  { house := i + 1, sign := get_zodiac_sign c, degree := round2 (pyMod c 30),
    absolute_degree := round2 c }

/-- Fallback `houses_data` when the provider house lookup fails
(lines 188-194). -/
def fallbackHouses : List HouseCusp :=
  (List.range 12).map fun i =>
    { house := i + 1, sign := ZODIAC_SIGNS.getD i "Aries", degree := 0,
      absolute_degree := (i : ℚ) * 30 }

/-- Houses phase: on success, the cusp set, its `houses_data`, and the
ascendant/midheaven longitudes; on failure, no cusp set, the fallback
`houses_data` and 0/0 angles. -/
def housesPhase (p : Provider) (jd lat lon : ℚ) :
    Option (Fin 12 → ℚ) × List HouseCusp × ℚ × ℚ :=
  match p.houses jd lat lon with
  | some (cusps, asc, mc) =>
    (some cusps,
     (List.finRange 12).map (fun i => houseCuspEntry i.val (cusps i)), asc, mc)
  | none => (none, fallbackHouses, 0, 0)

/-- House re-assignment (lines 182-184): every key of `planet_longitudes`
gets its house from `_assign_house`; bodies absent from the longitude map
(failed lookups) keep their current house. -/
def assignHouses (planets : List (String × Placement))
    (longs : List (String × ℚ)) (cusps : Fin 12 → ℚ) :
    List (String × Placement) :=
  planets.map fun q =>
    (q.1,
     match longs.lookup q.1 with
     | some lv => { q.2 with house := _assign_house lv cusps }
     | none => q.2)

/-- `{sign, degree}` record for ascendant/midheaven (lines 201-208). -/
def zodiacPosOf (lon : ℚ) : ZodiacPos :=
  { sign := get_zodiac_sign lon, degree := round2 (pyMod lon 30) }

-- ── calculate_birth_chart (lines 110-215) ──

/-- Python `s.split(sep)` for a single-character separator, on the
character list: splits at every occurrence, keeping empty fields
(`"".split("-") == [""]`). -/
def splitOn1 (sep : Char) : List Char → List (List Char)
  | [] => [[]]
  | c :: cs =>
    if c = sep then [] :: splitOn1 sep cs
    else
      match splitOn1 sep cs with
      | [] => [[c]]
      | g :: gs => (c :: g) :: gs

def pySplit (s : String) (sep : Char) : List String :=
  (splitOn1 sep s.data).map List.asString

/-- Decimal value of a digit string. -/
def digitsToNat (cs : List Char) : ℕ :=
  cs.foldl (fun n c => 10 * n + (c.toNat - 48)) 0

/-- Strip leading and trailing whitespace. -/
def pyStrip (cs : List Char) : List Char :=
  ((cs.dropWhile Char.isWhitespace).reverse.dropWhile Char.isWhitespace).reverse

/-- Digit-string check for Python `int(s)`: nonempty, all decimal digits. -/
def allDigits (cs : List Char) : Bool :=
  decide (cs ≠ []) && cs.all Char.isDigit

/-- Python `int(s)` on a string: strip whitespace, optional sign, decimal
digits (`none` models a raised `ValueError`; underscore digit separators
are not modelled). -/
def pyInt (s : String) : Option ℤ :=
  match pyStrip s.data with
  | '-' :: rest => if allDigits rest then some (-(digitsToNat rest : ℤ)) else none
  | '+' :: rest => if allDigits rest then some (digitsToNat rest : ℤ) else none
  | t => if allDigits t then some (digitsToNat t : ℤ) else none

/-- `int(parts[i])`: `none` when the index is out of range (`IndexError`)
or the component is non-numeric (`ValueError`). -/
def intField (parts : List String) (i : ℕ) : Option ℤ :=
  (parts.get? i).bind pyInt

/-- Date/time parsing (lines 129-132): `birth_date.split("-")` indexed at
0, 1, 2 and `birth_time.split(":")` indexed at 0, 1; an out-of-range index
(`IndexError`) or non-numeric component (`ValueError`) makes the whole
parse fail. Extra fields beyond those indexed are ignored, as in the
source. -/
def parseDateTime (birth_date birth_time : String) :
    Option (ℤ × ℤ × ℤ × ℚ) := do
  let dparts := pySplit birth_date '-'
  let year ← intField dparts 0
  let month ← intField dparts 1
  let day ← intField dparts 2
  let tparts := pySplit birth_time ':'
  let hh ← intField tparts 0
  let mm ← intField tparts 1
  return (year, month, day, (hh : ℚ) + (mm : ℚ) / 60)

/-- Body of `calculate_birth_chart` after successful parsing: planet loop,
South Node, houses (with fallback), house assignment, aspects, assembly
(lines 136-211). None of these steps can raise: per-body and house-lookup
provider failures are absorbed. -/
def buildChart (p : Provider) (jd lat lon : ℚ) : Chart :=
  let acc := buildPlanets p jd PLANET_IDS
  let acc2 := addSouthNode acc.1 acc.2
  let hp := housesPhase p jd lat lon
  let planets :=
    match hp.1 with
    | some cusps => assignHouses acc2.1 acc2.2 cusps
    | none => acc2.1
  { planets := planets
    ascendant := zodiacPosOf hp.2.2.1
    midheaven := zodiacPosOf hp.2.2.2
    houses := hp.2.1
    aspects := _calculate_aspects acc2.2 }

/-- `calculate_birth_chart(birth_date, birth_time, lat, lon)`: a parse
failure is re-raised as `ValueError` by the outer handler (lines 213-215);
otherwise the chart is built and returned. -/
def calculate_birth_chart (p : Provider) (birth_date birth_time : String)
    (lat lon : ℚ) : Except String Chart :=
  match parseDateTime birth_date birth_time with
  | none => .error "Chart calculation failed"
  | some (y, m, d, hours) => .ok (buildChart p (p.julday y m d hours) lat lon)

-- ── calculate_current_transits (lines 218-279) ──

/-- The six designated transit bodies, in source order (line 244). -/
def transit_planet_names : List String :=
  ["Mars", "Jupiter", "Saturn", "Uranus", "Neptune", "Pluto"]

/-- `current_positions` loop (lines 246-249): any provider failure
propagates (no handler in `calculate_current_transits`). -/
def collectPositions (p : Provider) (jd : ℚ) :
    List String → Option (List (String × ℚ))
  | [] => some []
  | nm :: rest => do
    let r ← p.calcUT jd ((PLANET_IDS.lookup nm).getD 0)
    let tail ← collectPositions p jd rest
    return (nm, r.1) :: tail

/-- Transit matches for one (transit body, natal body) pair (inner catalog
loop, lines 264-272): universal `TRANSIT_ORB` for every aspect type. -/
def transitsForPair (tn : String) (tl : ℚ) (nn : String) (nl : ℚ) :
    List TransitEntry :=
  (ASPECT_DEFINITIONS.filter
      fun d => |reducedAngle tl nl - d.angle| ≤ TRANSIT_ORB).map
    fun d =>
      { planet := tn, type := d.type, natal_planet := nn,
        orb := round2 |reducedAngle tl nl - d.angle| }

/-- Inner natal-body loop (lines 256-272): skips "South Node" via
`continue`. The source reads `natal_data.get("absolute_degree", 0)`; in
the typed model the field is always present. -/
def transitLoopInner (tn : String) (tl : ℚ) :
    List (String × Placement) → List TransitEntry
  | [] => []
  | (nn, pl) :: rest =>
    if nn = "South Node" then transitLoopInner tn tl rest
    else transitsForPair tn tl nn pl.absolute_degree ++ transitLoopInner tn tl rest

/-- Outer transit-body loop (line 255). -/
def transitLoop (natal : List (String × Placement)) :
    List (String × ℚ) → List TransitEntry
  | [] => []
  | (tn, tl) :: rest => transitLoopInner tn tl natal ++ transitLoop natal rest

/-- `calculate_current_transits(birth_chart)` with the wall-clock Julian
day made an explicit argument `jd` and the chart's `planets` dict passed
as `natal`. Moon, Sun and the six transit bodies are looked up with no
handler, so a provider failure propagates (`none`). -/
def calculate_current_transits (p : Provider) (jd : ℚ)
    (natal : List (String × Placement)) : Option TransitSnapshot := do
  let moon ← p.calcUT jd 1
  let sun ← p.calcUT jd 0
  let positions ← collectPositions p jd transit_planet_names
  let phase_idx := ((pyTrunc (pyMod (moon.1 - sun.1) 360 / 45)).emod 8).toNat
  return { moon_sign := get_zodiac_sign moon.1
           moon_phase := MOON_PHASES.getD phase_idx "New Moon"
           active_transits := (transitLoop natal positions).take 10 }

-- ── Spec-side definitions (for claims stated against the spec's words) ──

/-- The house-membership condition of spec §4.3, as a proposition: with
`cur = cusps[i]`, `next = cusps[(i+1) mod 12]`, either no wrap and
`cur ≤ L < next`, or wrap and `L ≥ cur ∨ L < next`. -/
def houseProp (L : ℚ) (cusps : Fin 12 → ℚ) (i : Fin 12) : Prop :=
  if cusps i < cusps (i + 1) then cusps i ≤ L ∧ L < cusps (i + 1)
  else cusps i ≤ L ∨ L < cusps (i + 1)

instance (L : ℚ) (cusps : Fin 12 → ℚ) (i : Fin 12) :
    Decidable (houseProp L cusps i) := by
  unfold houseProp; infer_instance

/-- Spec §4.6 steps 4-5, in the spec's words: every (transit body, natal
body) pair, natal bodies excluding South Node, tested against the five
aspect angles with the single universal orb of 3°, matches collected in
generation order. -/
def specTransitMatches (positions : List (String × ℚ))
    (natal : List (String × Placement)) : List TransitEntry :=
  positions.flatMap fun tp =>
    (natal.filter fun q => q.1 ≠ "South Node").flatMap fun q =>
      (ASPECT_DEFINITIONS.filter fun d =>
          |reducedAngle tp.2 q.2.absolute_degree - d.angle| ≤ 3).map fun d =>
        { planet := tp.1, type := d.type, natal_planet := q.1,
          orb := round2 |reducedAngle tp.2 q.2.absolute_degree - d.angle| }

/-- The ascendant `{sign, degree}` a chart built at `(jd, lat, lon)` gets:
derived from the provider's ascendant longitude, or 0° Aries on house
failure. -/
def ascendantOf (p : Provider) (jd lat lon : ℚ) : ZodiacPos :=
  zodiacPosOf (housesPhase p jd lat lon).2.2.1

-- ── Concrete providers used by witnesses and counterexamples ──

/-- A provider that succeeds for every body and whose ascendant tracks the
latitude argument. -/
def pSample : Provider :=
  { calcUT := fun _ pid => some ((pid : ℚ) * 20 + 5, 1)
    houses := fun _ lat _ => some (fun i => (i : ℚ) * 30, lat, 200)
    julday := fun _ _ _ _ => 0 }

/-- A provider that fails for the North Node (id 11) only. -/
def pFailNN : Provider :=
  { calcUT := fun _ pid => if pid = 11 then none else some (10, 1)
    houses := fun _ lat _ => some (fun i => (i : ℚ) * 30, lat, 200)
    julday := fun _ _ _ _ => 0 }

/-- A provider whose longitudes sit just below a sign boundary
(29.999°). -/
def pC3 : Provider :=
  { calcUT := fun _ _ => some (29999/1000, 0)
    houses := fun _ _ _ => none
    julday := fun _ _ _ _ => 0 }

-- ══ Theorems ══

-- ── Association-list lemmas ──

theorem lookup_eq_none_of_not_mem {α : Type} (nm : String) :
    ∀ (l : List (String × α)), nm ∉ l.map Prod.fst → l.lookup nm = none := by
  intro l
  induction l with
  | nil => intro _; rfl
  | cons q t ih =>
    obtain ⟨k, v⟩ := q
    intro h
    simp only [List.map_cons, List.mem_cons, not_or] at h
    have hk : (nm == k) = false := beq_eq_false_iff_ne.mpr h.1
    simp [List.lookup_cons, hk, ih h.2]

theorem lookup_append {α : Type} (nm : String) :
    ∀ (l1 l2 : List (String × α)),
      (l1 ++ l2).lookup nm =
        match l1.lookup nm with
        | some v => some v
        | none => l2.lookup nm := by
  intro l1 l2
  induction l1 with
  | nil => simp
  | cons q t ih =>
    obtain ⟨k, v⟩ := q
    cases hk : (nm == k) with
    | true => simp [List.lookup_cons, hk]
    | false => simp [List.lookup_cons, hk, ih]

-- ── buildPlanets lemmas ──

theorem buildPlanets_fst_keys (p : Provider) (jd : ℚ) :
    ∀ l : List (String × Nat),
      (buildPlanets p jd l).1.map Prod.fst = l.map Prod.fst := by
  intro l
  induction l with
  | nil => rfl
  | cons q t ih =>
    obtain ⟨nm, pid⟩ := q
    simp only [buildPlanets, _calculate_planet_position]
    cases hc : p.calcUT jd pid <;> simp [ih]

theorem buildPlanets_snd_keys_sub (p : Provider) (jd : ℚ) :
    ∀ (l : List (String × Nat)) (nm : String),
      nm ∈ (buildPlanets p jd l).2.map Prod.fst → nm ∈ l.map Prod.fst := by
  intro l
  induction l with
  | nil => intro nm h; simp [buildPlanets] at h
  | cons q t ih =>
    obtain ⟨k, pid⟩ := q
    intro nm h
    simp only [buildPlanets] at h
    cases hc : _calculate_planet_position p jd pid with
    | some pos =>
      rw [hc] at h
      simp only [List.map_cons, List.mem_cons] at h
      simp only [List.map_cons, List.mem_cons]
      exact h.imp id (ih nm)
    | none =>
      rw [hc] at h
      simp only [List.map_cons] at h
      simp only [List.map_cons, List.mem_cons]
      exact Or.inr (ih nm h)

theorem buildPlanets_house_one (p : Provider) (jd : ℚ) :
    ∀ (l : List (String × Nat)) (q : String × Placement),
      q ∈ (buildPlanets p jd l).1 → q.2.house = 1 := by
  intro l
  induction l with
  | nil => intro q h; simp [buildPlanets] at h
  | cons e t ih =>
    obtain ⟨k, pid⟩ := e
    intro q h
    simp only [buildPlanets] at h
    cases hc : _calculate_planet_position p jd pid with
    | some pos =>
      rw [hc] at h
      simp only [List.mem_cons] at h
      rcases h with rfl | h
      · simp only [_calculate_planet_position] at hc
        rcases Option.map_eq_some'.mp hc with ⟨r, hr, rfl⟩
        rfl
      · exact ih q h
    | none =>
      rw [hc] at h
      simp only [List.mem_cons] at h
      rcases h with rfl | h
      · rfl
      · exact ih q h

theorem buildPlanets_lookup_fst (p : Provider) (jd : ℚ) :
    ∀ (l : List (String × Nat)), (l.map Prod.fst).Nodup →
      ∀ nm pid, (nm, pid) ∈ l →
        (buildPlanets p jd l).1.lookup nm =
          some (match p.calcUT jd pid with
                | some r => placementOf r
                | none => degradedPlacement) := by
  intro l
  induction l with
  | nil => intro _ nm pid h; cases h
  | cons e t ih =>
    obtain ⟨k, kpid⟩ := e
    intro hnd nm pid hmem
    simp only [List.map_cons, List.nodup_cons] at hnd
    rcases List.mem_cons.mp hmem with heq | hmem2
    · have h1 : nm = k := congrArg Prod.fst heq
      have h2 : pid = kpid := congrArg Prod.snd heq
      rw [h1, h2]
      simp only [buildPlanets, _calculate_planet_position]
      cases hc : p.calcUT jd kpid with
      | some r => simp [hc, List.lookup_cons]
      | none => simp [hc, List.lookup_cons]
    · have hne : nm ≠ k := by
        intro e
        exact hnd.1 (e ▸ List.mem_map_of_mem Prod.fst hmem2)
      have hkb : (nm == k) = false := beq_eq_false_iff_ne.mpr hne
      simp only [buildPlanets, _calculate_planet_position]
      cases hc : p.calcUT jd kpid with
      | some r => simp [hc, List.lookup_cons, hkb, ih hnd.2 nm pid hmem2]
      | none => simp [hc, List.lookup_cons, hkb, ih hnd.2 nm pid hmem2]

theorem buildPlanets_lookup_snd (p : Provider) (jd : ℚ) :
    ∀ (l : List (String × Nat)), (l.map Prod.fst).Nodup →
      ∀ nm pid, (nm, pid) ∈ l →
        (buildPlanets p jd l).2.lookup nm =
          (p.calcUT jd pid).map (fun r => (placementOf r).absolute_degree) := by
  intro l
  induction l with
  | nil => intro _ nm pid h; cases h
  | cons e t ih =>
    obtain ⟨k, kpid⟩ := e
    intro hnd nm pid hmem
    simp only [List.map_cons, List.nodup_cons] at hnd
    rcases List.mem_cons.mp hmem with heq | hmem2
    · have h1 : nm = k := congrArg Prod.fst heq
      have h2 : pid = kpid := congrArg Prod.snd heq
      rw [h1, h2]
      simp only [buildPlanets, _calculate_planet_position]
      cases hc : p.calcUT jd kpid with
      | some r => simp [hc, List.lookup_cons]
      | none =>
        simp only [hc, Option.map]
        apply lookup_eq_none_of_not_mem
        intro hmm
        exact hnd.1 (buildPlanets_snd_keys_sub p jd t k hmm)
    · have hne : nm ≠ k := by
        intro e
        exact hnd.1 (e ▸ List.mem_map_of_mem Prod.fst hmem2)
      have hkb : (nm == k) = false := beq_eq_false_iff_ne.mpr hne
      simp only [buildPlanets, _calculate_planet_position]
      cases hc : p.calcUT jd kpid with
      | some r => simp [hc, List.lookup_cons, hkb, ih hnd.2 nm pid hmem2]
      | none => simp [hc, ih hnd.2 nm pid hmem2]

-- ── addSouthNode lemmas ──

theorem addSouthNode_lookup_fst_other (pls : List (String × Placement))
    (ls : List (String × ℚ)) (nm : String) (h : nm ≠ "South Node") :
    (addSouthNode pls ls).1.lookup nm = pls.lookup nm := by
  unfold addSouthNode
  cases hN : ls.lookup "North Node" with
  | none => rfl
  | some nn =>
    simp only
    rw [lookup_append]
    cases hp : pls.lookup nm with
    | some v => rfl
    | none => simp [List.lookup_cons, beq_eq_false_iff_ne.mpr h]

theorem addSouthNode_lookup_snd_other (pls : List (String × Placement))
    (ls : List (String × ℚ)) (nm : String) (h : nm ≠ "South Node") :
    (addSouthNode pls ls).2.lookup nm = ls.lookup nm := by
  unfold addSouthNode
  cases hN : ls.lookup "North Node" with
  | none => rfl
  | some nn =>
    simp only
    rw [lookup_append]
    cases hp : ls.lookup nm with
    | some v => rfl
    | none => simp [List.lookup_cons, beq_eq_false_iff_ne.mpr h]

theorem addSouthNode_lookup_SN (pls : List (String × Placement))
    (ls : List (String × ℚ)) (hSN : "South Node" ∉ pls.map Prod.fst) :
    (addSouthNode pls ls).1.lookup "South Node" =
      (ls.lookup "North Node").map (fun nn =>
        { sign := get_zodiac_sign (pyMod (nn + 180) 360)
          degree := round2 (pyMod (pyMod (nn + 180) 360) 30)
          absolute_degree := round2 (pyMod (nn + 180) 360)
          house := 1
          retrograde := false }) := by
  unfold addSouthNode
  cases hN : ls.lookup "North Node" with
  | none => simp [lookup_eq_none_of_not_mem _ pls hSN]
  | some nn =>
    simp only [Option.map_some]
    rw [lookup_append, lookup_eq_none_of_not_mem _ pls hSN]
    simp [List.lookup_cons]

theorem addSouthNode_house_one (pls : List (String × Placement))
    (ls : List (String × ℚ)) (h : ∀ q ∈ pls, (q : String × Placement).2.house = 1) :
    ∀ q ∈ (addSouthNode pls ls).1, (q : String × Placement).2.house = 1 := by
  unfold addSouthNode
  cases hN : ls.lookup "North Node" with
  | none => exact h
  | some nn =>
    simp only
    intro q hq
    rcases List.mem_append.mp hq with hq1 | hq2
    · exact h q hq1
    · simp only [List.mem_singleton] at hq2
      subst hq2
      rfl

-- ── assignHouses lemmas ──

theorem assignHouses_lookup (ls : List (String × ℚ)) (c : Fin 12 → ℚ)
    (nm : String) :
    ∀ (pls : List (String × Placement)),
      (assignHouses pls ls c).lookup nm =
        (pls.lookup nm).map (fun pl =>
          match ls.lookup nm with
          | some lv => { pl with house := _assign_house lv c }
          | none => pl) := by
  intro pls
  induction pls with
  | nil => rfl
  | cons q t ih =>
    obtain ⟨k, v⟩ := q
    cases hk : (nm == k) with
    | true =>
      have : nm = k := beq_iff_eq.mp hk
      subst this
      simp [assignHouses, List.lookup_cons]
    | false =>
      simp only [assignHouses, List.map_cons] at ih ⊢
      simp [List.lookup_cons, hk, ih]

theorem assignHouses_abs (ls : List (String × ℚ)) (c : Fin 12 → ℚ) :
    ∀ (pls : List (String × Placement)),
      (assignHouses pls ls c).map (fun q => (q.1, q.2.absolute_degree)) =
        pls.map (fun q => (q.1, q.2.absolute_degree)) := by
  intro pls
  induction pls with
  | nil => rfl
  | cons q t ih =>
    simp only [assignHouses, List.map_cons] at ih ⊢
    rw [ih]
    cases hl : ls.lookup q.1 <;> simp [hl]

/-- Exact rationals with two decimal places are fixed by `round2`. -/
theorem round2_eq_self (x : ℚ) (k : ℤ) (h : x * 100 = k) : round2 x = x := by
  unfold round2 pyRoundInt
  have hfl : ⌊x * 100⌋ = k := by rw [h]; exact Int.floor_intCast k
  rw [hfl, h]
  rw [if_pos (by simp)]
  have : x = (k : ℚ) / 100 := by
    field_simp
    linarith [h]
  rw [this]

-- ── Claim C4 ──

/-- C4 counterexample: `get_zodiac_sign` is not modularly invariant on
negative longitudes — it does not normalize into [0,360): at L = -15,
k = 1 the two signs differ (Python `int()` truncates toward zero, so
`int(-0.5) = 0` lands -15° in "Aries" while 345° is "Pisces"). -/
theorem C4_counterexample :
    get_zodiac_sign (-15) = "Aries" ∧
    get_zodiac_sign (-15 + 360 * 1) = "Pisces" ∧
    get_zodiac_sign (-15 + 360 * 1) ≠ get_zodiac_sign (-15) := by
  with_unfolding_all decide

/-- C4 (amended): for nonnegative longitudes the sign is invariant under
adding whole turns: for every L ≥ 0 and integer k with L + 360k ≥ 0,
`get_zodiac_sign (L + 360 * k) = get_zodiac_sign L`. -/
theorem C4_periodic_nonneg (L : ℚ) (k : ℤ) (h0 : 0 ≤ L)
    (h1 : 0 ≤ L + 360 * k) : get_zodiac_sign (L + 360 * k) = get_zodiac_sign L := by
  unfold get_zodiac_sign pyTrunc
  rw [if_pos (div_nonneg h1 (by norm_num)), if_pos (div_nonneg h0 (by norm_num))]
  have hdiv : (L + 360 * (k : ℚ)) / 30 = L / 30 + ((12 * k : ℤ) : ℚ) := by
    push_cast; ring
  rw [hdiv, Int.floor_add_int]
  have : (⌊L / 30⌋ + 12 * k).emod 12 = ⌊L / 30⌋.emod 12 :=
    Int.add_mul_emod_self_left ..
  rw [this]

/-- Witness for C4 (amended) at L = 15, k = 2. -/
theorem C4_periodic_nonneg_witness :
    (0 ≤ (15 : ℚ) ∧ 0 ≤ (15 : ℚ) + 360 * (2 : ℤ)) ∧
    get_zodiac_sign (15 + 360 * (2 : ℤ)) = get_zodiac_sign 15 :=
  ⟨⟨by norm_num, by norm_num⟩, C4_periodic_nonneg 15 2 (by norm_num) (by norm_num)⟩

-- ── Claim C3 ──

/-- C3 counterexample: at provider longitude 29.999 ∈ [0,360), the stored
degree is `round(29.999, 2) = 30.0`, violating `degree < 30`; the chart
built from such longitudes has a placement with degree = 30. -/
theorem C3_counterexample :
    (0 ≤ (29999/1000 : ℚ) ∧ (29999/1000 : ℚ) < 360) ∧
    ((buildChart pC3 0 0 0).planets.lookup "Sun").map Placement.degree = some 30 ∧
    (buildChart pC3 0 0 0).planets.all (fun q => decide (q.2.degree < 30)) = false := by
  with_unfolding_all decide

/-- C3 (amended): for provider longitudes in [0,360), the rounded fields
satisfy the closed bounds `0 ≤ degree ≤ 30` and
`0 ≤ absolute_degree ≤ 360`; the right endpoints are reachable because the
2-decimal rounding can push a value within 0.005 of a boundary onto it. -/
theorem C3_bounds (lon speed : ℚ) (h0 : 0 ≤ lon) (h1 : lon < 360) :
    0 ≤ (placementOf (lon, speed)).degree ∧
    (placementOf (lon, speed)).degree ≤ 30 ∧
    0 ≤ (placementOf (lon, speed)).absolute_degree ∧
    (placementOf (lon, speed)).absolute_degree ≤ 360 := by
  unfold placementOf
  dsimp only
  refine ⟨round2_nonneg _ (pyMod_nonneg _ _ (by norm_num)), ?_,
          round2_nonneg _ h0, ?_⟩
  · have h := round2_le_of_lt (pyMod lon 30) 30 (by
      have := pyMod_lt lon 30 (by norm_num)
      push_cast
      linarith)
    push_cast at h
    linarith
  · have h := round2_le_of_lt lon 360 (by push_cast; linarith)
    push_cast at h
    linarith

/-- Witness for C3 (amended) at longitude 100, speed 0. -/
theorem C3_bounds_witness :
    (0 ≤ (100 : ℚ) ∧ (100 : ℚ) < 360) ∧
    (0 ≤ (placementOf (100, 0)).degree ∧
     (placementOf (100, 0)).degree ≤ 30 ∧
     0 ≤ (placementOf (100, 0)).absolute_degree ∧
     (placementOf (100, 0)).absolute_degree ≤ 360) :=
  ⟨by norm_num, C3_bounds 100 0 (by norm_num) (by norm_num)⟩

-- ── Claim C5 ──

/-- The boolean loop test decides the spec's house condition. -/
theorem houseMatch_iff (L : ℚ) (c : Fin 12 → ℚ) (i : Fin 12) :
    houseMatch L c i = true ↔ houseProp L c i := by
  unfold houseMatch houseProp
  split_ifs <;> simp

/-- `find?` on a strictly sorted list returns any member that satisfies
the predicate while everything smaller fails it. -/
theorem find?_first {n : ℕ} (p : Fin n → Bool) :
    ∀ (l : List (Fin n)), l.Pairwise (· < ·) →
      ∀ i ∈ l, p i = true → (∀ j, j < i → p j = false) →
        l.find? p = some i := by
  intro l
  induction l with
  | nil => intro _ i hi; cases hi
  | cons a t ih =>
    intro hpw i hi hpi hmin
    rcases List.mem_cons.mp hi with rfl | hit
    · simp [List.find?, hpi]
    · have ha : a < i := (List.pairwise_cons.mp hpw).1 i hit
      have hpa : p a = false := hmin a ha
      have hrec := ih (List.pairwise_cons.mp hpw).2 i hit hpi hmin
      simp [List.find?, hpa, hrec]

/-- C5: `_assign_house` returns `i + 1` for the smallest 0-based index `i`
satisfying the wrap-aware cusp-interval condition (first match wins), and
1 when no index matches. -/
theorem C5_assign_house_first_match (L : ℚ) (c : Fin 12 → ℚ) :
    ((∀ i : Fin 12, ¬ houseProp L c i) → _assign_house L c = 1) ∧
    (∀ i : Fin 12, houseProp L c i →
      (∀ j : Fin 12, j < i → ¬ houseProp L c j) →
      _assign_house L c = i.val + 1) := by
  constructor
  · intro hall
    unfold _assign_house
    have hn : (List.finRange 12).find? (houseMatch L c) = none := by
      rw [List.find?_eq_none]
      intro i _
      simpa [houseMatch_iff] using hall i
    rw [hn]
  · intro i hi hmin
    unfold _assign_house
    have hf := find?_first (houseMatch L c) (List.finRange 12)
      (List.pairwise_lt_finRange 12) i (List.mem_finRange i)
      ((houseMatch_iff L c i).mpr hi)
      (fun j hj => by
        have hj2 := hmin j hj
        rw [← houseMatch_iff L c j] at hj2
        exact Bool.eq_false_iff.mpr hj2)
    rw [hf]

/-- Witness for C5: with 30°-spaced cusps starting at 0°, longitude 100°
falls in house 4 (first matching index 3). -/
theorem C5_assign_house_first_match_witness :
    _assign_house 100 (fun i => (i : ℚ) * 30) = 4 :=
  (C5_assign_house_first_match 100 (fun i => (i : ℚ) * 30)).2
    ⟨3, by norm_num⟩
    (by with_unfolding_all decide)
    (by with_unfolding_all decide)

-- ── Claim C8 ──

/-- C8 counterexample: a date string with four fields has a wrong field
count, yet `calculate_birth_chart` does not raise — Python indexes only
`parts[0..2]` and ignores the extra trailing field, so "2020-1-2-3" parses
as 2020-01-02 and a chart is returned. -/
theorem C8_counterexample :
    (pySplit "2020-1-2-3" '-').length = 4 ∧
    parseDateTime "2020-1-2-3" "12:00" = some (2020, 1, 2, 12) ∧
    (calculate_birth_chart pSample "2020-1-2-3" "12:00" 0 0).isOk = true := by
  with_unfolding_all decide

/-- C8 (amended): `calculate_birth_chart` raises the chart-calculation
error whenever one of the components it actually indexes is missing or
non-numeric — date fields 0..2 or time fields 0..1; extra trailing fields
beyond those are ignored. -/
theorem C8_malformed_raises (p : Provider) (bd bt : String) (lat lon : ℚ)
    (h : (∃ i < 3, intField (pySplit bd '-') i = none) ∨
         (∃ i < 2, intField (pySplit bt ':') i = none)) :
    calculate_birth_chart p bd bt lat lon = .error "Chart calculation failed" := by
  have hparse : parseDateTime bd bt = none := by
    rcases h with ⟨i, hi, hnone⟩ | ⟨i, hi, hnone⟩
    · interval_cases i
      · simp [parseDateTime, hnone]
      · cases h0 : intField (pySplit bd '-') 0 with
        | none => simp [parseDateTime, h0]
        | some y => simp [parseDateTime, h0, hnone]
      · cases h0 : intField (pySplit bd '-') 0 with
        | none => simp [parseDateTime, h0]
        | some y =>
          cases h1 : intField (pySplit bd '-') 1 with
          | none => simp [parseDateTime, h0, h1]
          | some mo => simp [parseDateTime, h0, h1, hnone]
    · interval_cases i
      · cases h0 : intField (pySplit bd '-') 0 with
        | none => simp [parseDateTime, h0]
        | some y =>
          cases h1 : intField (pySplit bd '-') 1 with
          | none => simp [parseDateTime, h0, h1]
          | some mo =>
            cases h2 : intField (pySplit bd '-') 2 with
            | none => simp [parseDateTime, h0, h1, h2]
            | some d => simp [parseDateTime, h0, h1, h2, hnone]
      · cases h0 : intField (pySplit bd '-') 0 with
        | none => simp [parseDateTime, h0]
        | some y =>
          cases h1 : intField (pySplit bd '-') 1 with
          | none => simp [parseDateTime, h0, h1]
          | some mo =>
            cases h2 : intField (pySplit bd '-') 2 with
            | none => simp [parseDateTime, h0, h1, h2]
            | some d =>
              cases h3 : intField (pySplit bt ':') 0 with
              | none => simp [parseDateTime, h0, h1, h2, h3]
              | some hh => simp [parseDateTime, h0, h1, h2, h3, hnone]
  unfold calculate_birth_chart
  rw [hparse]

/-- Witness for C8 (amended): "not-a-date" raises. -/
theorem C8_malformed_raises_witness :
    calculate_birth_chart pSample "not-a-date" "12:00" 0 0 =
      .error "Chart calculation failed" :=
  C8_malformed_raises pSample "not-a-date" "12:00" 0 0
    (Or.inl ⟨0, by norm_num, by with_unfolding_all decide⟩)

-- ── Claim C2 ──

/-- No tracked body is named "South Node". -/
theorem PLANET_IDS_not_SN :
    ∀ q ∈ PLANET_IDS, (q : String × Nat).1 ≠ "South Node" := by decide

/-- The tracked-body names are distinct. -/
theorem PLANET_IDS_nodup : (PLANET_IDS.map Prod.fst).Nodup := by decide

/-- C2: when the provider fails for a single tracked body and succeeds for
the others, `calculate_birth_chart` still returns a chart; the failed body
receives the degraded default placement (Aries, 0°, house 1, not
retrograde) and every tracked body is present in the placements map. -/
theorem C2_single_body_failure (p : Provider) (bd bt : String) (lat lon : ℚ)
    (y m d : ℤ) (hrs : ℚ)
    (hparse : parseDateTime bd bt = some (y, m, d, hrs))
    (b : String) (pidb : Nat) (hb : (b, pidb) ∈ PLANET_IDS)
    (hfail : p.calcUT (p.julday y m d hrs) pidb = none)
    (_hok : ∀ nm pid, (nm, pid) ∈ PLANET_IDS → nm ≠ b →
      (p.calcUT (p.julday y m d hrs) pid).isSome = true) :
    ∃ ch : Chart,
      calculate_birth_chart p bd bt lat lon = .ok ch ∧
      ch.planets.lookup b = some degradedPlacement ∧
      ∀ nm pid, (nm, pid) ∈ PLANET_IDS →
        (ch.planets.lookup nm).isSome = true := by
  set jd := p.julday y m d hrs with hjd
  refine ⟨buildChart p jd lat lon, ?_, ?_, ?_⟩
  · unfold calculate_birth_chart
    rw [hparse]
  · have hbSN : b ≠ "South Node" := PLANET_IDS_not_SN (b, pidb) hb
    have h0 : (buildPlanets p jd PLANET_IDS).1.lookup b =
        some degradedPlacement := by
      have h := buildPlanets_lookup_fst p jd PLANET_IDS PLANET_IDS_nodup b pidb hb
      simp only [hfail] at h
      exact h
    have h0l : (buildPlanets p jd PLANET_IDS).2.lookup b = none := by
      have h := buildPlanets_lookup_snd p jd PLANET_IDS PLANET_IDS_nodup b pidb hb
      simp only [hfail, Option.map] at h
      exact h
    have h1 : (addSouthNode (buildPlanets p jd PLANET_IDS).1
        (buildPlanets p jd PLANET_IDS).2).1.lookup b = some degradedPlacement := by
      rw [addSouthNode_lookup_fst_other _ _ b hbSN, h0]
    have h1l : (addSouthNode (buildPlanets p jd PLANET_IDS).1
        (buildPlanets p jd PLANET_IDS).2).2.lookup b = none := by
      rw [addSouthNode_lookup_snd_other _ _ b hbSN, h0l]
    simp only [buildChart]
    cases hh : (housesPhase p jd lat lon).1 with
    | none => simpa using h1
    | some c =>
      simp only [assignHouses_lookup, h1, h1l]
      rfl
  · intro nm pid hmem
    have hnmSN : nm ≠ "South Node" := PLANET_IDS_not_SN (nm, pid) hmem
    have h0 := buildPlanets_lookup_fst p jd PLANET_IDS PLANET_IDS_nodup nm pid hmem
    have h1 : (addSouthNode (buildPlanets p jd PLANET_IDS).1
        (buildPlanets p jd PLANET_IDS).2).1.lookup nm =
        (buildPlanets p jd PLANET_IDS).1.lookup nm :=
      addSouthNode_lookup_fst_other _ _ nm hnmSN
    simp only [buildChart]
    cases hh : (housesPhase p jd lat lon).1 with
    | none =>
      simp only [h1, h0]
      rfl
    | some c =>
      simp only [assignHouses_lookup, h1, h0]
      rfl

/-- Witness for C2: a provider failing only for the North Node (id 11)
still yields a complete chart with the degraded default for that body. -/
theorem C2_single_body_failure_witness :
    ∃ ch : Chart,
      calculate_birth_chart pFailNN "2000-01-01" "12:00" 0 0 = .ok ch ∧
      ch.planets.lookup "North Node" = some degradedPlacement ∧
      ∀ nm pid, (nm, pid) ∈ PLANET_IDS →
        (ch.planets.lookup nm).isSome = true :=
  C2_single_body_failure pFailNN "2000-01-01" "12:00" 0 0 2000 1 1 12
    (by with_unfolding_all decide) "North Node" 11 (by decide)
    (by with_unfolding_all decide)
    (by
      intro nm pid hmem hne
      fin_cases hmem <;>
        first
          | exact absurd rfl hne
          | with_unfolding_all decide)

-- ── Claim C1 ──

/-- Applying `pyMod · 360` to a two-decimal value stays two-decimal, so a
further `round2` is the identity there. -/
theorem round2_pyMod_round2 (x : ℚ) :
    round2 (pyMod (round2 x + 180) 360) = pyMod (round2 x + 180) 360 := by
  apply round2_eq_self _
    (pyRoundInt (x * 100) + 18000 - 36000 * ⌊(round2 x + 180) / 360⌋)
  unfold round2 pyMod
  push_cast
  ring

/-- C1 counterexample: when the provider lookup for the North Node fails,
the degraded default North Node is present but no "South Node" entry is
created at all — the derivation is keyed on `planet_longitudes`, which the
failure path never populates. -/
theorem C1_counterexample :
    (calculate_birth_chart pFailNN "2000-01-01" "12:00" 0 0).toOption.bind
        (fun ch => ch.planets.lookup "North Node") = some degradedPlacement ∧
    (calculate_birth_chart pFailNN "2000-01-01" "12:00" 0 0).toOption.bind
        (fun ch => ch.planets.lookup "South Node") = none := by
  with_unfolding_all decide

/-- C1 (amended): whenever the North Node lookup succeeds, the chart has a
South Node placement at exactly (North Node's rounded absolute degree +
180) mod 360 — well within the claimed 0.01° tolerance — and never
retrograde; but when the North Node lookup fails, no South Node entry
exists in the placements map. -/
theorem C1_south_node (p : Provider) (bd bt : String) (lat lon : ℚ)
    (y m d : ℤ) (hrs : ℚ) (ch : Chart)
    (hparse : parseDateTime bd bt = some (y, m, d, hrs))
    (hch : calculate_birth_chart p bd bt lat lon = .ok ch) :
    (∀ r : ℚ × ℚ, p.calcUT (p.julday y m d hrs) 11 = some r →
      ∃ sn nn : Placement,
        ch.planets.lookup "South Node" = some sn ∧
        ch.planets.lookup "North Node" = some nn ∧
        sn.absolute_degree = pyMod (nn.absolute_degree + 180) 360 ∧
        sn.retrograde = false) ∧
    (p.calcUT (p.julday y m d hrs) 11 = none →
      ch.planets.lookup "South Node" = none) := by
  set jd := p.julday y m d hrs with hjd
  have hchq : ch = buildChart p jd lat lon := by
    unfold calculate_birth_chart at hch
    rw [hparse] at hch
    exact (Except.ok.injEq .. ▸ hch).symm
  subst hchq
  have hNNmem : ("North Node", 11) ∈ PLANET_IDS := by decide
  have hSNkeys : "South Node" ∉ (buildPlanets p jd PLANET_IDS).1.map Prod.fst := by
    rw [buildPlanets_fst_keys]
    decide
  constructor
  · intro r hNN
    have hls : (buildPlanets p jd PLANET_IDS).2.lookup "North Node" =
        some (round2 r.1) := by
      have h := buildPlanets_lookup_snd p jd PLANET_IDS PLANET_IDS_nodup
        "North Node" 11 hNNmem
      simp only [hNN] at h
      exact h
    have hpl : (buildPlanets p jd PLANET_IDS).1.lookup "North Node" =
        some (placementOf r) := by
      have h := buildPlanets_lookup_fst p jd PLANET_IDS PLANET_IDS_nodup
        "North Node" 11 hNNmem
      simp only [hNN] at h
      exact h
    have hSN1 : (addSouthNode (buildPlanets p jd PLANET_IDS).1
        (buildPlanets p jd PLANET_IDS).2).1.lookup "South Node" =
        some { sign := get_zodiac_sign (pyMod (round2 r.1 + 180) 360)
               degree := round2 (pyMod (pyMod (round2 r.1 + 180) 360) 30)
               absolute_degree := round2 (pyMod (round2 r.1 + 180) 360)
               house := 1
               retrograde := false } := by
      rw [addSouthNode_lookup_SN _ _ hSNkeys, hls]
      rfl
    have hNN1 : (addSouthNode (buildPlanets p jd PLANET_IDS).1
        (buildPlanets p jd PLANET_IDS).2).1.lookup "North Node" =
        some (placementOf r) := by
      rw [addSouthNode_lookup_fst_other _ _ _ (by decide), hpl]
    simp only [buildChart]
    cases hh : (housesPhase p jd lat lon).1 with
    | none =>
      refine ⟨_, _, hSN1, hNN1, ?_, rfl⟩
      simp only [placementOf]
      exact round2_pyMod_round2 r.1
    | some c =>
      simp only [assignHouses_lookup, hSN1, hNN1, Option.map_some]
      refine ⟨_, _, rfl, rfl, ?_, ?_⟩
      · cases hsl : (addSouthNode (buildPlanets p jd PLANET_IDS).1
            (buildPlanets p jd PLANET_IDS).2).2.lookup "South Node" <;>
        cases hnl : (addSouthNode (buildPlanets p jd PLANET_IDS).1
            (buildPlanets p jd PLANET_IDS).2).2.lookup "North Node" <;>
          simp only [hsl, hnl] <;>
          exact round2_pyMod_round2 r.1
      · cases hsl : (addSouthNode (buildPlanets p jd PLANET_IDS).1
            (buildPlanets p jd PLANET_IDS).2).2.lookup "South Node" <;>
          simp only [hsl]
  · intro hNN
    have hls : (buildPlanets p jd PLANET_IDS).2.lookup "North Node" = none := by
      have h := buildPlanets_lookup_snd p jd PLANET_IDS PLANET_IDS_nodup
        "North Node" 11 hNNmem
      simp only [hNN, Option.map] at h
      exact h
    have hSN1 : (addSouthNode (buildPlanets p jd PLANET_IDS).1
        (buildPlanets p jd PLANET_IDS).2).1.lookup "South Node" = none := by
      rw [addSouthNode_lookup_SN _ _ hSNkeys, hls]
      rfl
    simp only [buildChart]
    cases hh : (housesPhase p jd lat lon).1 with
    | none => exact hSN1
    | some c =>
      simp only [assignHouses_lookup, hSN1, Option.map_none]
      rfl

/-- Witness for C1 (amended), success branch: with `pSample` the North
Node sits at 225° and the South Node at exactly 45°. -/
theorem C1_south_node_witness :
    ∃ sn nn : Placement,
      (buildChart pSample 0 0 0).planets.lookup "South Node" = some sn ∧
      (buildChart pSample 0 0 0).planets.lookup "North Node" = some nn ∧
      sn.absolute_degree = pyMod (nn.absolute_degree + 180) 360 ∧
      sn.retrograde = false :=
  (C1_south_node pSample "2000-01-01" "12:00" 0 0 2000 1 1 12
      (buildChart pSample 0 0 0)
      (by with_unfolding_all decide)
      (by
        unfold calculate_birth_chart
        rw [(by with_unfolding_all decide :
          parseDateTime "2000-01-01" "12:00" =
            some ((2000 : ℤ), (1 : ℤ), (1 : ℤ), (12 : ℚ)))]
        rfl)).1
    (225, 1) (by with_unfolding_all decide)

-- ── Claim C6 ──

/-- C6: when the provider's house lookup fails, the chart falls back to
whole-sign placeholder houses (house i+1 at cusp i*30 with the i-th
zodiac sign), a 0° Aries ascendant and midheaven, and every body keeps
the default house 1. -/
theorem C6_house_fallback (p : Provider) (bd bt : String) (lat lon : ℚ)
    (y m d : ℤ) (hrs : ℚ)
    (hparse : parseDateTime bd bt = some (y, m, d, hrs))
    (hfail : p.houses (p.julday y m d hrs) lat lon = none) :
    ∃ ch : Chart,
      calculate_birth_chart p bd bt lat lon = .ok ch ∧
      ch.houses.length = 12 ∧
      (∀ i : ℕ, i < 12 → ch.houses.get? i =
        some { house := i + 1, sign := ZODIAC_SIGNS.getD i "Aries",
               degree := 0, absolute_degree := (i : ℚ) * 30 }) ∧
      ch.ascendant = { sign := "Aries", degree := 0 } ∧
      ch.midheaven = { sign := "Aries", degree := 0 } ∧
      ∀ q ∈ ch.planets, (q : String × Placement).2.house = 1 := by
  set jd := p.julday y m d hrs with hjd
  have hhp : housesPhase p jd lat lon = (none, fallbackHouses, 0, 0) := by
    unfold housesPhase
    rw [hfail]
  refine ⟨buildChart p jd lat lon, ?_, ?_, ?_, ?_, ?_, ?_⟩
  · unfold calculate_birth_chart
    rw [hparse]
  · simp [buildChart, hhp, fallbackHouses]
  · intro i hi
    simp only [buildChart, hhp, fallbackHouses]
    rw [List.get?_map, List.get?_range hi]
    rfl
  · simp only [buildChart, hhp]
    with_unfolding_all decide
  · simp only [buildChart, hhp]
    with_unfolding_all decide
  · intro q hq
    simp only [buildChart, hhp] at hq
    exact addSouthNode_house_one _ _ (buildPlanets_house_one p jd PLANET_IDS) q hq

/-- Witness for C6 with `pC3`, whose house lookup always fails. -/
theorem C6_house_fallback_witness :
    ∃ ch : Chart,
      calculate_birth_chart pC3 "2000-01-01" "12:00" 0 0 = .ok ch ∧
      ch.houses.length = 12 ∧
      (∀ i : ℕ, i < 12 → ch.houses.get? i =
        some { house := i + 1, sign := ZODIAC_SIGNS.getD i "Aries",
               degree := 0, absolute_degree := (i : ℚ) * 30 }) ∧
      ch.ascendant = { sign := "Aries", degree := 0 } ∧
      ch.midheaven = { sign := "Aries", degree := 0 } ∧
      ∀ q ∈ ch.planets, (q : String × Placement).2.house = 1 :=
  C6_house_fallback pC3 "2000-01-01" "12:00" 0 0 2000 1 1 12
    (by with_unfolding_all decide) (by with_unfolding_all decide)

-- ── Claim C9 ──

/-- The `(name, absolute_degree)` projection of a chart's placements does
not depend on the location arguments. -/
theorem buildChart_abs_proj (p : Provider) (jd lat lon : ℚ) :
    (buildChart p jd lat lon).planets.map (fun q => (q.1, q.2.absolute_degree)) =
      (addSouthNode (buildPlanets p jd PLANET_IDS).1
        (buildPlanets p jd PLANET_IDS).2).1.map
          (fun q => (q.1, q.2.absolute_degree)) := by
  simp only [buildChart]
  cases hh : (housesPhase p jd lat lon).1 with
  | none => rfl
  | some c => simp [assignHouses_abs]

/-- C9: two charts for the same date and time but different coordinates
agree on every planet's name and absolute degree (body positions depend
only on the time index), while — whenever the provider-derived ascendant
positions differ — the returned ascendants differ. -/
theorem C9_location_independence (p : Provider) (bd bt : String)
    (lat1 lon1 lat2 lon2 : ℚ) (y m d : ℤ) (hrs : ℚ)
    (hparse : parseDateTime bd bt = some (y, m, d, hrs))
    (hasc : ascendantOf p (p.julday y m d hrs) lat1 lon1 ≠
            ascendantOf p (p.julday y m d hrs) lat2 lon2) :
    ∃ c1 c2 : Chart,
      calculate_birth_chart p bd bt lat1 lon1 = .ok c1 ∧
      calculate_birth_chart p bd bt lat2 lon2 = .ok c2 ∧
      c1.planets.map (fun q => (q.1, q.2.absolute_degree)) =
        c2.planets.map (fun q => (q.1, q.2.absolute_degree)) ∧
      c1.ascendant ≠ c2.ascendant := by
  set jd := p.julday y m d hrs with hjd
  refine ⟨buildChart p jd lat1 lon1, buildChart p jd lat2 lon2, ?_, ?_, ?_, ?_⟩
  · unfold calculate_birth_chart
    rw [hparse]
  · unfold calculate_birth_chart
    rw [hparse]
  · rw [buildChart_abs_proj, buildChart_abs_proj]
  · exact hasc

/-- Witness for C9: `pSample` reports the latitude as the ascendant
longitude, so latitudes 0 and 40 give 0° Aries vs 10° Taurus. -/
theorem C9_location_independence_witness :
    ∃ c1 c2 : Chart,
      calculate_birth_chart pSample "2000-01-01" "12:00" 0 0 = .ok c1 ∧
      calculate_birth_chart pSample "2000-01-01" "12:00" 40 0 = .ok c2 ∧
      c1.planets.map (fun q => (q.1, q.2.absolute_degree)) =
        c2.planets.map (fun q => (q.1, q.2.absolute_degree)) ∧
      c1.ascendant ≠ c2.ascendant :=
  C9_location_independence pSample "2000-01-01" "12:00" 0 0 40 0 2000 1 1 12
    (by with_unfolding_all decide) (by with_unfolding_all decide)

-- ── Claim C7 ──

/-- A successful `current_positions` pass yields exactly the queried
transit bodies, in order. -/
theorem collectPositions_keys (p : Provider) (jd : ℚ) :
    ∀ (ns : List String) (res : List (String × ℚ)),
      collectPositions p jd ns = some res → res.map Prod.fst = ns := by
  intro ns
  induction ns with
  | nil =>
    intro res h
    simp only [collectPositions, Option.some.injEq] at h
    rw [← h]
    rfl
  | cons nm rest ih =>
    intro res h
    simp only [collectPositions] at h
    cases hc : p.calcUT jd ((PLANET_IDS.lookup nm).getD 0) with
    | none => simp [hc] at h
    | some r =>
      rw [hc] at h
      cases ht : collectPositions p jd rest with
      | none => simp [ht] at h
      | some tail =>
        rw [ht] at h
        simp only [bind, Option.bind, pure, Option.some.injEq] at h
        rw [← h]
        simp [ih tail ht]

/-- The inner natal loop equals a filter of the natal list (the
`continue` on "South Node") followed by the per-pair matching. -/
theorem transitLoopInner_eq (tn : String) (tl : ℚ) :
    ∀ natal : List (String × Placement),
      transitLoopInner tn tl natal =
        (natal.filter fun q => q.1 ≠ "South Node").flatMap
          (fun q => transitsForPair tn tl q.1 q.2.absolute_degree) := by
  intro natal
  induction natal with
  | nil => rfl
  | cons q t ih =>
    obtain ⟨nn, pl⟩ := q
    by_cases h : nn = "South Node"
    · subst h
      simp [transitLoopInner, List.filter_cons, ih]
    · simp [transitLoopInner, List.filter_cons, h, ih]

/-- The transit double loop computes the spec's match list. -/
theorem transitLoop_eq (natal : List (String × Placement)) :
    ∀ positions : List (String × ℚ),
      transitLoop natal positions = specTransitMatches positions natal := by
  intro positions
  induction positions with
  | nil => rfl
  | cons tp rest ih =>
    obtain ⟨tn, tl⟩ := tp
    simp only [transitLoop, specTransitMatches, List.flatMap_cons] at ih ⊢
    rw [transitLoopInner_eq, ih]
    simp [specTransitMatches, transitsForPair, TRANSIT_ORB]

/-- C7: a transit snapshot's active list is the first ten spec-side
matches — all (transit, natal) pairs over exactly Mars…Pluto in order,
natal bodies in stored order minus South Node, five aspect angles with the
universal 3° orb, in generation order — so its length never exceeds 10. -/
theorem C7_transit_truncation (p : Provider) (jd : ℚ)
    (natal : List (String × Placement)) (snap : TransitSnapshot)
    (h : calculate_current_transits p jd natal = some snap) :
    ∃ positions : List (String × ℚ),
      collectPositions p jd transit_planet_names = some positions ∧
      positions.map Prod.fst =
        ["Mars", "Jupiter", "Saturn", "Uranus", "Neptune", "Pluto"] ∧
      snap.active_transits = (specTransitMatches positions natal).take 10 ∧
      snap.active_transits.length ≤ 10 := by
  unfold calculate_current_transits at h
  cases hm : p.calcUT jd 1 with
  | none => simp [hm] at h
  | some moon =>
  rw [hm] at h
  cases hs : p.calcUT jd 0 with
  | none => simp [hs] at h
  | some sun =>
  rw [hs] at h
  cases hp : collectPositions p jd transit_planet_names with
  | none => simp [hp] at h
  | some positions =>
  rw [hp] at h
  simp only [bind, Option.bind, pure, Option.some.injEq] at h
  have hsnap : snap.active_transits = (transitLoop natal positions).take 10 := by
    rw [← h]
  refine ⟨positions, rfl, collectPositions_keys p jd _ _ hp, ?_, ?_⟩
  · rw [hsnap, transitLoop_eq]
  · rw [hsnap]
    exact List.length_take_le 10 _

/-- Witness for C7: `pSample` at jd 0 against a single natal Sun at 0°
yields an empty active list (length 0 ≤ 10). -/
theorem C7_transit_truncation_witness :
    ∃ positions : List (String × ℚ),
      collectPositions pSample 0 transit_planet_names = some positions ∧
      positions.map Prod.fst =
        ["Mars", "Jupiter", "Saturn", "Uranus", "Neptune", "Pluto"] ∧
      (TransitSnapshot.mk "Aries" "New Moon" []).active_transits =
        (specTransitMatches positions [("Sun", degradedPlacement)]).take 10 ∧
      (TransitSnapshot.mk "Aries" "New Moon" []).active_transits.length ≤ 10 :=
  C7_transit_truncation pSample 0 [("Sun", degradedPlacement)]
    (TransitSnapshot.mk "Aries" "New Moon" [])
    (by with_unfolding_all decide)

-- ── Claim C10 ──

/-- The five orb windows of the natal aspect catalog are pairwise
disjoint: no angle is within orb of two different definitions. -/
theorem aspect_filter_le_one (q : ℚ) :
    (ASPECT_DEFINITIONS.filter fun d => |q - d.angle| ≤ d.orb).length ≤ 1 := by
  simp only [ASPECT_DEFINITIONS, List.filter_cons, List.filter_nil]
  split_ifs <;>
    simp_all only [decide_eq_true_eq, abs_le, List.length_cons,
      List.length_nil, List.length_singleton] <;>
    (try casesm* _ ∧ _) <;>
    linarith

theorem countP_flatMap {β γ : Type} (f : β → List γ) (q : γ → Bool) :
    ∀ l : List β,
      (l.flatMap f).countP q = (l.map (fun x => (f x).countP q)).sum := by
  intro l
  induction l with
  | nil => rfl
  | cons x xs ih => simp [List.flatMap_cons, List.countP_append, ih]

theorem countP_eq_sum_indicator {β : Type} (P : β → Bool) :
    ∀ l : List β,
      (l.map (fun x => if P x then 1 else 0)).sum = l.countP P := by
  intro l
  induction l with
  | nil => rfl
  | cons x xs ih =>
    simp only [List.map_cons, List.sum_cons, List.countP_cons, ih]
    cases h : P x <;> simp [h]
    omega

theorem sum_le_one_of_sparse :
    ∀ l : List ℕ, (∀ x ∈ l, x ≤ 1) →
      l.countP (fun x => decide (x ≠ 0)) ≤ 1 → l.sum ≤ 1 := by
  intro l
  induction l with
  | nil => intro _ _; simp
  | cons x xs ih =>
    intro hle hcnt
    simp only [List.countP_cons] at hcnt
    cases hx : decide (x ≠ 0) with
    | false =>
      have hx0 : x = 0 := by simpa using hx
      rw [hx] at hcnt
      simp only [Bool.false_eq_true, if_false, Nat.add_zero] at hcnt
      simp only [List.sum_cons, hx0, Nat.zero_add]
      exact ih (fun y hy => hle y (List.mem_cons_of_mem x hy)) hcnt
    | true =>
      rw [hx] at hcnt
      simp only [if_true] at hcnt
      have hcnt0 : xs.countP (fun y => decide (y ≠ 0)) = 0 := by omega
      have hall : ∀ y ∈ xs, y = 0 := by
        intro y hy
        have := List.countP_eq_zero.mp hcnt0 y hy
        simpa using this
      have hsum0 : xs.sum = 0 := by
        rw [List.sum_eq_zero hall]
      simp only [List.sum_cons, hsum0, Nat.add_zero]
      exact hle x (List.mem_cons_self x xs)

theorem pairsOf_mem {α : Type} :
    ∀ (l : List α) (pq : α × α), pq ∈ pairsOf l → pq.1 ∈ l ∧ pq.2 ∈ l := by
  intro l
  induction l with
  | nil => intro pq h; cases h
  | cons x xs ih =>
    intro pq h
    simp only [pairsOf, List.mem_append, List.mem_map] at h
    rcases h with ⟨y, hy, rfl⟩ | h
    · exact ⟨List.mem_cons_self x xs, List.mem_cons_of_mem x hy⟩
    · have hm := ih pq h
      exact ⟨List.mem_cons_of_mem x hm.1, List.mem_cons_of_mem x hm.2⟩

theorem countP_key_eq_le_one {α : Type} (key : α → String) (b : String) :
    ∀ xs : List α, (xs.map key).Nodup →
      xs.countP (fun y => decide (key y = b)) ≤ 1 := by
  intro xs
  induction xs with
  | nil => intro _; simp
  | cons x t ih =>
    intro hnd
    simp only [List.map_cons, List.nodup_cons] at hnd
    simp only [List.countP_cons]
    cases hx : decide (key x = b) with
    | false => simpa using ih hnd.2
    | true =>
      have hxb : key x = b := by simpa using hx
      have h0 : t.countP (fun y => decide (key y = b)) = 0 := by
        rw [List.countP_eq_zero]
        intro y hy hP
        have hyb : key y = b := by simpa using hP
        exact hnd.1 (hxb ▸ hyb ▸ List.mem_map_of_mem key hy)
      simp [h0]

theorem countP_mono {β : Type} (p q : β → Bool)
    (h : ∀ x, p x = true → q x = true) :
    ∀ l : List β, l.countP p ≤ l.countP q := by
  intro l
  induction l with
  | nil => simp
  | cons x t ih =>
    simp only [List.countP_cons]
    cases hp : p x with
    | false => cases hq : q x <;> simp <;> omega
    | true =>
      rw [h x hp]
      simp
      omega

theorem countP_map_eq {β γ : Type} (f : β → γ) (q : γ → Bool) :
    ∀ l : List β, (l.map f).countP q = l.countP (fun z => q (f z)) := by
  intro l
  induction l with
  | nil => rfl
  | cons z t ih => simp [List.countP_cons, ih]

/-- With distinct keys, at most one pair in the double-loop pair list
carries a given unordered pair of key names. -/
theorem pairsOf_namePair_count {α : Type} (key : α → String) (a b : String) :
    ∀ l : List α, (l.map key).Nodup →
      (pairsOf l).countP
        (fun pq => decide ((key pq.1 = a ∧ key pq.2 = b) ∨
                           (key pq.1 = b ∧ key pq.2 = a))) ≤ 1 := by
  intro l
  induction l with
  | nil => intro _; simp [pairsOf]
  | cons x xs ih =>
    intro hnd
    simp only [List.map_cons, List.nodup_cons] at hnd
    simp only [pairsOf, List.countP_append, countP_map_eq]
    by_cases hx : key x = a ∨ key x = b
    · have h2 : (pairsOf xs).countP
          (fun pq => decide ((key pq.1 = a ∧ key pq.2 = b) ∨
                             (key pq.1 = b ∧ key pq.2 = a))) = 0 := by
        rw [List.countP_eq_zero]
        intro pq hpq hP
        have hm := pairsOf_mem xs pq hpq
        have hk1 : key pq.1 ∈ xs.map key := List.mem_map_of_mem key hm.1
        have hk2 : key pq.2 ∈ xs.map key := List.mem_map_of_mem key hm.2
        simp only [decide_eq_true_eq] at hP
        apply hnd.1
        rcases hx with hxa | hxb
        · rw [hxa]
          rcases hP with ⟨e1, _⟩ | ⟨_, e2⟩
          · rw [← e1]; exact hk1
          · rw [← e2]; exact hk2
        · rw [hxb]
          rcases hP with ⟨_, e2⟩ | ⟨e1, _⟩
          · rw [← e2]; exact hk2
          · rw [← e1]; exact hk1
      rw [h2, Nat.add_zero]
      rcases hx with hxa | hxb
      · refine le_trans
          (countP_mono _ (fun y => decide (key y = b)) ?_ xs)
          (countP_key_eq_le_one key b xs hnd.2)
        intro y hy
        simp only [decide_eq_true_eq] at hy ⊢
        rcases hy with ⟨_, e⟩ | ⟨e1, e2⟩
        · exact e
        · have hab : a = b := by rw [← hxa]; exact e1
          rw [e2, hab]
      · refine le_trans
          (countP_mono _ (fun y => decide (key y = a)) ?_ xs)
          (countP_key_eq_le_one key a xs hnd.2)
        intro y hy
        simp only [decide_eq_true_eq] at hy ⊢
        rcases hy with ⟨e1, e2⟩ | ⟨_, e⟩
        · have hab : b = a := by rw [← hxb]; exact e1
          rw [e2, ← hab]
        · exact e
    · push_neg at hx
      have h1 : xs.countP
          (fun y => decide ((key (x, y).1 = a ∧ key (x, y).2 = b) ∨
                            (key (x, y).1 = b ∧ key (x, y).2 = a))) = 0 := by
        rw [List.countP_eq_zero]
        intro y hy hP
        simp only [decide_eq_true_eq] at hP
        rcases hP with ⟨e1, _⟩ | ⟨e1, _⟩
        · exact hx.1 e1
        · exact hx.2 e1
      rw [h1, Nat.zero_add]
      exact ih hnd.2

/-- C10: with the fixed catalog the orb windows are pairwise disjoint —
no angle matches two aspect definitions — so, over any longitude map with
distinct body names, `_calculate_aspects` emits at most one aspect per
unordered pair of bodies. -/
theorem C10_one_aspect_per_pair (longs : List (String × ℚ))
    (hnd : (longs.map Prod.fst).Nodup) (a b : String) :
    (∀ q : ℚ,
      (ASPECT_DEFINITIONS.filter fun d => |q - d.angle| ≤ d.orb).length ≤ 1) ∧
    (_calculate_aspects longs).countP
      (fun x => decide ((x.planet1 = a ∧ x.planet2 = b) ∨
                        (x.planet1 = b ∧ x.planet2 = a))) ≤ 1 := by
  refine ⟨aspect_filter_le_one, ?_⟩
  unfold _calculate_aspects
  rw [countP_flatMap]
  apply sum_le_one_of_sparse
  · intro v hv
    rcases List.mem_map.mp hv with ⟨pq, hpq, rfl⟩
    refine le_trans (List.countP_le_length _) ?_
    unfold aspectsForPair
    rw [List.length_map]
    exact aspect_filter_le_one _
  · rw [countP_map_eq]
    refine le_trans
      (countP_mono _
        (fun pq => decide ((Prod.fst pq.1 = a ∧ Prod.fst pq.2 = b) ∨
                           (Prod.fst pq.1 = b ∧ Prod.fst pq.2 = a))) ?_
        (pairsOf longs))
      (pairsOf_namePair_count Prod.fst a b longs hnd)
    intro pq hpq
    simp only [decide_eq_true_eq] at hpq ⊢
    have hex : ∃ asp ∈ aspectsForPair pq.1.1 pq.2.1 pq.1.2 pq.2.2,
        (fun x => decide ((x.planet1 = a ∧ x.planet2 = b) ∨
                          (x.planet1 = b ∧ x.planet2 = a))) asp = true := by
      by_contra hno
      push_neg at hno
      apply hpq
      rw [List.countP_eq_zero]
      intro asp hasp
      intro hP
      exact absurd hP (by simpa using hno asp hasp)
    rcases hex with ⟨asp, hmem, hP⟩
    unfold aspectsForPair at hmem
    rcases List.mem_map.mp hmem with ⟨d, _, rfl⟩
    simpa using hP

/-- Witness for C10 on the map Sun 0°, Moon 96°: at most one aspect links
the Sun-Moon pair. -/
theorem C10_one_aspect_per_pair_witness :
    (∀ q : ℚ,
      (ASPECT_DEFINITIONS.filter fun d => |q - d.angle| ≤ d.orb).length ≤ 1) ∧
    (_calculate_aspects [("Sun", 0), ("Moon", 96)]).countP
      (fun x => decide ((x.planet1 = "Sun" ∧ x.planet2 = "Moon") ∨
                        (x.planet1 = "Moon" ∧ x.planet2 = "Sun"))) ≤ 1 :=
  C10_one_aspect_per_pair [("Sun", 0), ("Moon", 96)] (by decide) "Sun" "Moon"

end Lumina
